import Mathlib

/-!
Verification development for the dynui-max component library.

The repository contains two leaf React components:
* `DynStepper` (src/unnamed/part_000) — a step/wizard navigation control;
* `DynMenuItem` (src/packages/core/src/components/DynMenu/DynMenuItem.tsx) —
  a menu row / divider control.

Both components are stateless with respect to domain data: every render is a
pure function of the props, and the event handlers emit `(index, step)` or
`value` notifications to the host.  We embed them shallowly: props become
structures, the derived render output becomes a data structure (status, class
lists, ARIA attributes, indicator choice, connectors), and each event handler
becomes a function returning an `Option` describing the callback invocation it
performs (`none` = no invocation).  Opaque React nodes (custom icons, item
content) are represented by `String` payloads; only their presence and
identity matter to the properties proved here.
-/

namespace DynUI

/-- Step display status, from `type StepStatus` in the stepper source. -/
inductive StepStatus where
  | pending
  | current
  | complete
  | error
deriving DecidableEq

/-- CSS modifier text of a status, as interpolated into class names. -/
def StepStatus.toClassString : StepStatus → String
  | .pending => "pending"
  | .current => "current"
  | .complete => "complete"
  | .error => "error"

/-- `interface StepData` from the stepper source.  `disabled` is an optional
boolean in TypeScript and is only ever tested for truthiness, so it is a
`Bool` defaulting to `false`; the opaque `React.ReactNode` icon is a `String`
payload. -/
structure StepData where
  key : String
  title : String
  description : Option String := none
  status : Option StepStatus := none
  disabled : Bool := false
  icon : Option String := none
deriving DecidableEq

/-- Stepper orientation prop. -/
inductive Orientation where
  | horizontal
  | vertical
deriving DecidableEq

def Orientation.toClassString : Orientation → String
  | .horizontal => "horizontal"
  | .vertical => "vertical"

/-- `interface DynStepperProps`, with the source defaults.  `current` is a
host-supplied JavaScript number used only in integer comparisons, so it is an
`Int` (it may be negative or past the end).  The optional `onChange` callback
is host delivery and is not part of the state: the handler functions below
return the `(index, step)` argument the component passes to `onChange` when
one is supplied (`none` when the component does not invoke it). -/
structure DynStepperProps where
  current : Int
  steps : List StepData
  orientation : Orientation := .horizontal
  size : String := "md"
  showNumbers : Bool := true
  showConnectors : Bool := true
  clickable : Bool := true
  className : Option String := none
deriving DecidableEq

/-- `getStepStatus` from the stepper source: an explicit per-step `status`
override wins; otherwise the status is computed from the index against
`current`. -/
def getStepStatus (current : Int) (stepIndex : Nat) (step : StepData) : StepStatus :=
  match step.status with
  | some s => s
  | none =>
    if (stepIndex : Int) < current then .complete
    else if (stepIndex : Int) = current then .current
    else .pending

/-- `isClickable` computed per step inside the render loop:
`clickable && !step.disabled && index <= current`. -/
def isClickable (p : DynStepperProps) (index : Nat) (step : StepData) : Bool :=
  p.clickable && !step.disabled && decide ((index : Int) ≤ p.current)

/-- `handleStepClick` from the stepper source.  Returns the `(stepIndex,
stepData)` argument passed to the change callback, or `none` when the guard
rejects the interaction. -/
def handleStepClick (p : DynStepperProps) (stepIndex : Nat) (stepData : StepData) :
    Option (Nat × StepData) :=
  if !p.clickable || stepData.disabled then none
  else if (stepIndex : Int) ≤ p.current then some (stepIndex, stepData)
  else none

/-- A direct user interaction on a rendered step: a pointer click or a key
press with the given key value. -/
inductive Interaction where
  | click
  | keyDown (key : String)
deriving DecidableEq

/-- The callback invocation produced by a direct interaction on the step at
`index`.  The source attaches `onClick`/`onKeyDown` handlers only when
`isClickable` holds; the key handler reacts to `Enter` and space and both
handlers delegate to `handleStepClick`. -/
def stepInteraction (p : DynStepperProps) (index : Nat) (step : StepData)
    (act : Interaction) : Option (Nat × StepData) :=
  if isClickable p index step then
    match act with
    | .click => handleStepClick p index step
    | .keyDown k =>
      if k = "Enter" ∨ k = " " then handleStepClick p index step else none
  else none

/-- `goToStep` from the imperative handle: in range and not disabled fires the
change callback with `(stepIndex, steps[stepIndex])`, otherwise a silent
no-op.  The index is a caller-supplied number, hence `Int`. -/
def goToStep (steps : List StepData) (stepIndex : Int) : Option (Int × StepData) :=
  if h : 0 ≤ stepIndex ∧ stepIndex < (steps.length : Int) then
    let step := steps.get ⟨stepIndex.toNat, by omega⟩
    if step.disabled then none else some (stepIndex, step)
  else none

/-- `nextStep` from the imperative handle: guarded forward move. -/
def nextStep (steps : List StepData) (current : Int) : Option (Int × StepData) :=
  if current < (steps.length : Int) - 1 then goToStep steps (current + 1) else none

/-- `previousStep` from the imperative handle: guarded backward move. -/
def previousStep (steps : List StepData) (current : Int) : Option (Int × StepData) :=
  if current > 0 then goToStep steps (current - 1) else none

/-- Status indicator rendered inside `dyn-stepper__indicator`: one of the
five mutually exclusive branches of the source's conditional chain. -/
inductive Indicator where
  | errorGlyph
  | completeGlyph
  | customIcon (icon : String)
  | number (n : Nat)
  | dot
deriving DecidableEq

/-- The indicator conditional chain from the stepper render:
error glyph, else complete glyph, else the step's custom icon, else the
ordinal number when `showNumbers`, else an empty dot. -/
def renderIndicator (status : StepStatus) (icon : Option String)
    (showNumbers : Bool) (index : Nat) : Indicator :=
  if status = .error then .errorGlyph
  else if status = .complete then .completeGlyph
  else
    match icon with
    | some ic => .customIcon ic
    | none => if showNumbers then .number (index + 1) else .dot

/-- Class list of one step element, from the `clsx` call in the render loop. -/
def stepClasses (status : StepStatus) (clickableAttr : Bool) (disabled : Bool) :
    List String :=
  ["dyn-stepper__step", "dyn-stepper__step--" ++ status.toClassString]
  ++ (if clickableAttr then ["dyn-stepper__step--clickable"] else [])
  ++ (if disabled then ["dyn-stepper__step--disabled"] else [])

/-- The rendered attributes of one step element. -/
structure RenderedStep where
  classes : List String
  status : StepStatus
  clickableAttr : Bool
  title : String
  description : Option String
  indicator : Indicator
deriving DecidableEq

/-- Rendering of the step at `index` inside the `steps.map` loop. -/
def renderStep (p : DynStepperProps) (index : Nat) (step : StepData) : RenderedStep :=
  let status := getStepStatus p.current index step
  let ic := isClickable p index step
  { classes := stepClasses status ic step.disabled
    status := status
    clickableAttr := ic
    title := step.title
    description := step.description
    indicator := renderIndicator status step.icon p.showNumbers index }

/-- The track: for each step, its rendered element together with the
connector that follows it (`some completed` when a connector is rendered,
`none` after the last step or when connectors are disabled).  Mirrors the
fragment `[step, connector?]` emitted per iteration of `steps.map`. -/
def renderTrack (p : DynStepperProps) : List (RenderedStep × Option Bool) :=
  p.steps.enum.map fun pr =>
    (renderStep p pr.1 pr.2,
     if p.showConnectors ∧ pr.1 < p.steps.length - 1
     then some (decide ((pr.1 : Int) < p.current)) else none)

/-- Container class list from the top-level `clsx` call. -/
def containerClasses (p : DynStepperProps) : List String :=
  ["dyn-stepper", "dyn-stepper--" ++ p.orientation.toClassString,
   "dyn-stepper--size-" ++ p.size]
  ++ (if p.clickable then ["dyn-stepper--clickable"] else [])
  ++ (if p.showConnectors then ["dyn-stepper--with-connectors"] else [])
  ++ (match p.className with | some c => [c] | none => [])

/-- `aria-valuetext={steps[current]?.title}`: optional chaining on an
out-of-range (negative or past-the-end) index yields nothing. -/
def ariaValueTextOf (current : Int) (steps : List StepData) : Option String :=
  if current < 0 then none else (steps[current.toNat]?).map StepData.title

/-- The rendered output of the whole stepper component: container classes,
the ARIA progressbar attributes, and the track contents. -/
structure StepperRender where
  containerClasses : List String
  ariaValueMin : Int
  ariaValueMax : Int
  ariaValueNow : Int
  ariaValueText : Option String
  track : List (RenderedStep × Option Bool)
deriving DecidableEq

/-- The `DynStepper` component's render, as a pure function of the props
(the component has no internal state: `useCallback` / `useImperativeHandle`
only memoise values derived from the props). -/
def DynStepper (p : DynStepperProps) : StepperRender :=
  { containerClasses := containerClasses p
    ariaValueMin := 0
    ariaValueMax := (p.steps.length : Int) - 1
    ariaValueNow := p.current
    ariaValueText := ariaValueTextOf p.current p.steps
    track := renderTrack p }

/-- `interface DynMenuItemProps` with the source defaults.  The optional
`onClick` callback matters to the handler (`if (!disabled && onClick)`), so
its presence is a `Bool` prop; opaque node props are `String` payloads. -/
structure DynMenuItemProps where
  value : Option String := none
  hasOnClick : Bool := false
  disabled : Bool := false
  selected : Bool := false
  icon : Option String := none
  description : Option String := none
  shortcut : Option String := none
  divider : Bool := false
  className : Option String := none
deriving DecidableEq

/-- Rendered output of `DynMenuItem`: the divider branch renders a bare
separator; the item branch renders an interactive button row. -/
inductive MenuRender where
  | separator (classes : List String)
  | item (classes : List String) (ariaSelected : Bool) (disabledAttr : Bool)
      (icon : Option String) (description : Option String) (shortcut : Option String)
deriving DecidableEq

/-- Class list of the item-mode button, from the `clsx` call. -/
def menuItemClasses (p : DynMenuItemProps) : List String :=
  ["dyn-menu-item"]
  ++ (if p.selected then ["dyn-menu-item--selected"] else [])
  ++ (if p.disabled then ["dyn-menu-item--disabled"] else [])
  ++ (if p.icon.isSome then ["dyn-menu-item--with-icon"] else [])
  ++ (if p.description.isSome then ["dyn-menu-item--with-description"] else [])
  ++ (match p.className with | some c => [c] | none => [])

/-- The `DynMenuItem` component's render: the `divider` flag selects the
separator branch before any interactive markup is produced. -/
def DynMenuItem (p : DynMenuItemProps) : MenuRender :=
  if p.divider then
    .separator (["dyn-menu-item-divider"]
      ++ (match p.className with | some c => [c] | none => []))
  else
    .item (menuItemClasses p) p.selected p.disabled p.icon p.description p.shortcut

/-- `handleClick` from the menu item source: fires `onClick(value)` only when
not disabled and a callback is supplied.  Returns the `value` argument of the
invocation, or `none` when no invocation happens. -/
def handleClick (p : DynMenuItemProps) : Option (Option String) :=
  if !p.disabled && p.hasOnClick then some p.value else none

/-- The callback invocation produced by a direct interaction on a menu item.
The divider branch renders no handlers at all; in item mode the key handler
reacts to `Enter` and space and delegates to `handleClick`. -/
def menuActivate (p : DynMenuItemProps) (act : Interaction) : Option (Option String) :=
  if p.divider then none
  else
    match act with
    | .click => handleClick p
    | .keyDown k => if k = "Enter" ∨ k = " " then handleClick p else none

/-! ### Helper lemmas -/

/-- The per-step clickability test unfolded to its three conjuncts. -/
theorem isClickable_iff (p : DynStepperProps) (i : Nat) (step : StepData) :
    isClickable p i step = true ↔
      p.clickable = true ∧ step.disabled = false ∧ (i : Int) ≤ p.current := by
  simp [isClickable, and_assoc]

/-! ### Claims -/

/-- C1: for every step sequence, current index `c` and valid position `i`,
the displayed status of step `i` is the step's explicit override when set,
else `complete` when `i < c`, `current` when `i = c`, `pending` otherwise;
and the displayed status is `error` exactly when the override is `error`. -/
theorem getStepStatus_spec (steps : List StepData) (c : Int) (i : Nat)
    (h : i < steps.length) :
    getStepStatus c i steps[i] =
      (steps[i].status).getD
        (if (i : Int) < c then .complete
         else if (i : Int) = c then .current else .pending)
    ∧ (getStepStatus c i steps[i] = .error ↔ steps[i].status = some .error) := by
  constructor
  · cases hst : steps[i].status <;> simp [getStepStatus, hst]
  · cases hst : steps[i].status with
    | some s => simp [getStepStatus, hst]
    | none =>
      simp only [getStepStatus, hst]
      constructor
      · intro he
        split at he
        · cases he
        · split at he <;> cases he
      · intro he
        cases he

/-- Witness for C1 at a one-step sequence with no override and `c = 1`. -/
theorem getStepStatus_spec_witness :
    getStepStatus 1 0 ({ key := "a", title := "A" } : StepData) =
      (({ key := "a", title := "A" } : StepData)).status.getD
        (if (0 : Int) < 1 then .complete
         else if (0 : Int) = 1 then .current else .pending)
    ∧ (getStepStatus 1 0 ({ key := "a", title := "A" } : StepData) = .error ↔
       ({ key := "a", title := "A" } : StepData).status = some .error) :=
  getStepStatus_spec [{ key := "a", title := "A" }] 1 0 (by decide)

/-- C2: a pointer click or an Enter/Space key press on the step at position
`i` fires the change callback with `(i, step)` exactly when the global
`clickable` flag holds, the step is not disabled and `i ≤ current`; a forward
position (`i > current`) never fires under any direct interaction. -/
theorem stepInteraction_spec (p : DynStepperProps) (i : Nat) (step : StepData)
    (act : Interaction)
    (hact : act = .click ∨ act = .keyDown "Enter" ∨ act = .keyDown " ") :
    (stepInteraction p i step act = some (i, step) ↔
      p.clickable = true ∧ step.disabled = false ∧ (i : Int) ≤ p.current)
    ∧ (p.current < (i : Int) → ∀ a : Interaction, stepInteraction p i step a = none) := by
  constructor
  · constructor
    · intro hsome
      by_cases hb : isClickable p i step = true
      · exact (isClickable_iff p i step).mp hb
      · rw [Bool.not_eq_true] at hb
        simp [stepInteraction, hb] at hsome
    · intro hcond
      have hb : isClickable p i step = true := (isClickable_iff p i step).mpr hcond
      have hclick : handleStepClick p i step = some (i, step) := by
        simp [handleStepClick, hcond.1, hcond.2.1, hcond.2.2]
      rcases hact with h | h | h <;> subst h <;> simp [stepInteraction, hb, hclick]
  · intro hlt a
    have hb : isClickable p i step = false := by
      rw [Bool.eq_false_iff, Ne, isClickable_iff]
      rintro ⟨-, -, hle⟩
      omega
    simp [stepInteraction, hb]

/-- Witness for C2: with two steps and `current = 1`, clicking step 0 fires
the callback with `(0, step)`. -/
theorem stepInteraction_spec_witness :
    stepInteraction { current := 1, steps := [{ key := "a", title := "A" }] } 0
        { key := "a", title := "A" } .click =
      some (0, { key := "a", title := "A" }) :=
  (stepInteraction_spec { current := 1, steps := [{ key := "a", title := "A" }] } 0
    { key := "a", title := "A" } .click (Or.inl rfl)).1.mpr (by decide)

/-- C3: `goToStep(index)` fires the change callback with
`(index, steps[index])` exactly when `0 ≤ index < length` and the target step
is not disabled, and is a silent no-op otherwise; it is not bounded by
`index ≤ current` — concretely, with `current = 0` it can move to index 1
while a direct click on index 1 fires nothing. -/
theorem goToStep_spec (steps : List StepData) (index : Int) :
    (∀ h : 0 ≤ index ∧ index < (steps.length : Int),
       (steps.get ⟨index.toNat, by omega⟩).disabled = false →
       goToStep steps index = some (index, steps.get ⟨index.toNat, by omega⟩))
    ∧ (∀ h : 0 ≤ index ∧ index < (steps.length : Int),
       (steps.get ⟨index.toNat, by omega⟩).disabled = true →
       goToStep steps index = none)
    ∧ (¬ (0 ≤ index ∧ index < (steps.length : Int)) → goToStep steps index = none)
    ∧ goToStep [{ key := "a", title := "A" }, { key := "b", title := "B" }] 1 =
        some (1, { key := "b", title := "B" })
    ∧ stepInteraction
        { current := 0,
          steps := [{ key := "a", title := "A" }, { key := "b", title := "B" }] }
        1 { key := "b", title := "B" } .click = none := by
  refine ⟨?_, ?_, ?_, by decide, by decide⟩
  · intro h hd
    rw [List.get_eq_getElem] at hd
    unfold goToStep
    rw [dif_pos h]
    simp [hd]
  · intro h hd
    rw [List.get_eq_getElem] at hd
    unfold goToStep
    rw [dif_pos h]
    simp [hd]
  · intro h
    unfold goToStep
    rw [dif_neg h]

/-- Witness for C3: an in-range, enabled index fires the callback. -/
theorem goToStep_spec_witness :
    goToStep [{ key := "a", title := "A" }] 0 =
      some (0, { key := "a", title := "A" }) := by
  have h := (goToStep_spec [{ key := "a", title := "A" }] 0).1 (by decide) (by decide)
  simpa using h

/-- C4: `nextStep()` delegates to `goToStep(current + 1)` exactly when
`current < length - 1` and is a no-op otherwise; `previousStep()` delegates
to `goToStep(current - 1)` exactly when `current > 0` and is a no-op
otherwise; in particular `nextStep()` at `current = length - 1` and
`previousStep()` at `current = 0` fire no callback. -/
theorem nextStep_previousStep_spec (steps : List StepData) (current : Int) :
    (current < (steps.length : Int) - 1 →
       nextStep steps current = goToStep steps (current + 1))
    ∧ (¬ current < (steps.length : Int) - 1 → nextStep steps current = none)
    ∧ (0 < current → previousStep steps current = goToStep steps (current - 1))
    ∧ (¬ 0 < current → previousStep steps current = none)
    ∧ (current = (steps.length : Int) - 1 → nextStep steps current = none)
    ∧ (current = 0 → previousStep steps current = none) := by
  refine ⟨fun h => ?_, fun h => ?_, fun h => ?_, fun h => ?_, fun h => ?_, fun h => ?_⟩
  · unfold nextStep
    rw [if_pos h]
  · unfold nextStep
    rw [if_neg h]
  · unfold previousStep
    rw [if_pos h]
  · unfold previousStep
    rw [if_neg h]
  · unfold nextStep
    rw [if_neg (by omega)]
  · unfold previousStep
    rw [if_neg (by omega)]

/-- Witness for C4: with two steps, `nextStep` at the last index is a no-op
and `previousStep` at index 0 is a no-op. -/
theorem nextStep_previousStep_spec_witness :
    nextStep [{ key := "a", title := "A" }, { key := "b", title := "B" }] 1 = none
    ∧ previousStep [{ key := "a", title := "A" }, { key := "b", title := "B" }] 0 = none :=
  ⟨(nextStep_previousStep_spec
      [{ key := "a", title := "A" }, { key := "b", title := "B" }] 1).2.2.2.2.1 (by decide),
   (nextStep_previousStep_spec
      [{ key := "a", title := "A" }, { key := "b", title := "B" }] 0).2.2.2.2.2 (by decide)⟩

/-- C5: rendering is a total function of the props (so no exception is ever
raised in the embedding); when `current` is out of range (negative or past
the end), no step without an explicit override is displayed `current` and the
ARIA current-text lookup yields nothing; an empty step sequence renders an
empty track. -/
theorem stepperOutOfRange_spec (p : DynStepperProps) :
    ((p.current < 0 ∨ (p.steps.length : Int) ≤ p.current) →
      (∀ (i : Nat) (step : StepData), p.steps[i]? = some step → step.status = none →
         (renderStep p i step).status ≠ .current)
      ∧ (DynStepper p).ariaValueText = none)
    ∧ (p.steps = [] → (DynStepper p).track = []) := by
  constructor
  · intro hout
    constructor
    · intro i step hget hnone
      have hi : i < p.steps.length := by
        by_contra hge
        rw [List.getElem?_eq_none (by omega)] at hget
        cases hget
      have hrs : (renderStep p i step).status = getStepStatus p.current i step := rfl
      have hgs : getStepStatus p.current i step =
          (if (i : Int) < p.current then .complete
           else if (i : Int) = p.current then .current else .pending) := by
        simp [getStepStatus, hnone]
      rcases hout with hneg | hge
      · rw [hrs, hgs, if_neg (by omega), if_neg (by omega)]
        decide
      · rw [hrs, hgs, if_pos (by omega)]
        decide
    · show ariaValueTextOf p.current p.steps = none
      unfold ariaValueTextOf
      rcases hout with hneg | hge
      · rw [if_pos hneg]
      · rw [if_neg (by omega), List.getElem?_eq_none (by omega)]
        rfl
  · intro hnil
    show renderTrack p = []
    unfold renderTrack
    rw [hnil]
    rfl

/-- Witness for C5: with one step and `current = 5` the ARIA current text is
empty and the (override-free) step is not displayed `current`. -/
theorem stepperOutOfRange_spec_witness :
    (DynStepper { current := 5, steps := [{ key := "a", title := "A" }] }).ariaValueText
      = none :=
  ((stepperOutOfRange_spec
      { current := 5, steps := [{ key := "a", title := "A" }] }).1 (by decide)).2

/-- C6: the status indicator of a rendered step is chosen by strict priority
on the displayed status and configuration: error glyph, else complete glyph
(regardless of a custom icon), else the custom icon when present, else the
ordinal `index + 1` when `showNumbers`, else an empty dot. -/
theorem renderIndicator_spec (p : DynStepperProps) (index : Nat) (step : StepData) :
    (renderStep p index step).indicator =
      renderIndicator (getStepStatus p.current index step) step.icon p.showNumbers index
    ∧ ∀ (status : StepStatus) (icon : Option String) (sn : Bool),
      (status = .error → renderIndicator status icon sn index = .errorGlyph)
      ∧ (status ≠ .error → status = .complete →
          renderIndicator status icon sn index = .completeGlyph)
      ∧ (∀ ic, status ≠ .error → status ≠ .complete → icon = some ic →
          renderIndicator status icon sn index = .customIcon ic)
      ∧ (status ≠ .error → status ≠ .complete → icon = none → sn = true →
          renderIndicator status icon sn index = .number (index + 1))
      ∧ (status ≠ .error → status ≠ .complete → icon = none → sn = false →
          renderIndicator status icon sn index = .dot) := by
  refine ⟨rfl, ?_⟩
  intro status icon sn
  refine ⟨?_, ?_, ?_, ?_, ?_⟩
  · intro he
    unfold renderIndicator
    rw [if_pos he]
  · intro he hc
    unfold renderIndicator
    rw [if_neg he, if_pos hc]
  · intro ic he hc hic
    unfold renderIndicator
    rw [if_neg he, if_neg hc, hic]
  · intro he hc hic hsn
    unfold renderIndicator
    rw [if_neg he, if_neg hc, hic]
    simp [hsn]
  · intro he hc hic hsn
    unfold renderIndicator
    rw [if_neg he, if_neg hc, hic]
    simp [hsn]

/-- Witness for C6: an explicit error override beats a custom icon. -/
theorem renderIndicator_spec_witness :
    renderIndicator .error (some "I") true 0 = .errorGlyph :=
  ((renderIndicator_spec { current := 0, steps := [] } 0
      { key := "a", title := "A" }).2 .error (some "I") true).1 rfl

/-- C7: with connectors enabled, every pair of consecutive steps `i`, `i + 1`
has a connector rendered after step `i`, flagged completed exactly when
`i < current`; the last step has no connector after it. -/
theorem connector_spec (p : DynStepperProps) (i : Nat)
    (hc : p.showConnectors = true) :
    (i + 1 < p.steps.length →
      ∃ rs, (renderTrack p)[i]? = some (rs, some (decide ((i : Int) < p.current))))
    ∧ (i + 1 = p.steps.length →
      ∀ rs cn, (renderTrack p)[i]? = some (rs, cn) → cn = none) := by
  have htrack : (renderTrack p)[i]? =
      (p.steps[i]?).map fun step =>
        (renderStep p i step,
         if p.showConnectors ∧ i < p.steps.length - 1
         then some (decide ((i : Int) < p.current)) else none) := by
    unfold renderTrack
    rw [List.getElem?_map, List.getElem?_enum]
    cases p.steps[i]? <;> rfl
  constructor
  · intro hlt
    have hi : i < p.steps.length := by omega
    rw [htrack, List.getElem?_eq_getElem hi]
    refine ⟨renderStep p i p.steps[i], ?_⟩
    simp only [Option.map_some']
    rw [if_pos ⟨hc, by omega⟩]
  · intro hlast rs cn hsome
    rw [htrack] at hsome
    cases hget : p.steps[i]? with
    | none => rw [hget] at hsome; cases hsome
    | some step =>
      rw [hget] at hsome
      simp only [Option.map_some', Option.some.injEq, Prod.mk.injEq] at hsome
      rw [← hsome.2, if_neg]
      rintro ⟨-, hlt⟩
      omega

/-- Witness for C7: with three steps and `current = 1`, the connector after
step 0 is completed, the one after step 1 is not, and step 2 has none. -/
theorem connector_spec_witness :
    ∃ rs,
      (renderTrack
        { current := 1,
          steps := [{ key := "a", title := "A" }, { key := "b", title := "B" },
            { key := "c", title := "C" }] })[0]? =
      some (rs, some (decide ((0 : Int) < 1))) :=
  (connector_spec
    { current := 1,
      steps := [{ key := "a", title := "A" }, { key := "b", title := "B" },
        { key := "c", title := "C" }] } 0 rfl).1 (by decide)

/-- Helper: a disabled menu item, or one without a supplied callback, fires
no interaction at all. -/
theorem menuActivate_none (p : DynMenuItemProps)
    (h : p.disabled = true ∨ p.hasOnClick = false) (a : Interaction) :
    menuActivate p a = none := by
  have hc : handleClick p = none := by
    rcases h with h | h <;> simp [handleClick, h]
  cases a with
  | click => simp [menuActivate, hc]
  | keyDown k => simp [menuActivate, hc]

/-- C8: an activation (click, or Enter/Space while focused) of a menu item
invokes the host callback with the item's `value` exactly when the item is
not a divider, is not disabled, and a callback is supplied; a divider renders
a separator and never fires, and a disabled item never fires. -/
theorem menuActivate_spec (p : DynMenuItemProps) (act : Interaction)
    (hact : act = .click ∨ act = .keyDown "Enter" ∨ act = .keyDown " ") :
    (menuActivate p act = some p.value ↔
      p.divider = false ∧ p.disabled = false ∧ p.hasOnClick = true)
    ∧ (p.divider = true →
        (∃ cls, DynMenuItem p = .separator cls) ∧ ∀ a, menuActivate p a = none)
    ∧ (p.disabled = true → ∀ a, menuActivate p a = none) := by
  refine ⟨⟨?_, ?_⟩, ?_, ?_⟩
  · intro hsome
    by_cases hdiv : p.divider = true
    · unfold menuActivate at hsome
      rw [if_pos hdiv] at hsome
      cases hsome
    · rw [Bool.not_eq_true] at hdiv
      have hc : handleClick p = some p.value := by
        rcases hact with h | h | h <;> subst h <;>
          simpa [menuActivate, hdiv] using hsome
      have hcond : (!p.disabled && p.hasOnClick) = true := by
        by_contra hno
        rw [Bool.not_eq_true] at hno
        unfold handleClick at hc
        rw [hno] at hc
        simp at hc
      rw [Bool.and_eq_true, Bool.not_eq_true'] at hcond
      exact ⟨hdiv, hcond.1, hcond.2⟩
  · rintro ⟨hdiv, hd, ho⟩
    have hc : handleClick p = some p.value := by
      simp [handleClick, hd, ho]
    rcases hact with h | h | h <;> subst h <;>
      simp [menuActivate, hdiv, hc]
  · intro hdiv
    constructor
    · refine ⟨["dyn-menu-item-divider"]
        ++ (match p.className with | some c => [c] | none => []), ?_⟩
      unfold DynMenuItem
      rw [if_pos hdiv]
    · intro a
      unfold menuActivate
      rw [if_pos hdiv]
  · intro hd a
    exact menuActivate_none p (Or.inl hd) a

/-- Witness for C8: an enabled, non-divider item with a callback fires with
its value on click. -/
theorem menuActivate_spec_witness :
    menuActivate { value := some "v", hasOnClick := true } .click = some (some "v") :=
  (menuActivate_spec { value := some "v", hasOnClick := true } .click
    (Or.inl rfl)).1.mpr (by decide)

/-- C9: rendering is deterministic — both components render as pure
functions of their props (the source keeps no internal state between
renders), so identical props produce identical rendered attributes and
identical interaction behavior. -/
theorem render_deterministic (sp1 sp2 : DynStepperProps) (mp1 mp2 : DynMenuItemProps)
    (hs : sp1 = sp2) (hm : mp1 = mp2) :
    DynStepper sp1 = DynStepper sp2
    ∧ DynMenuItem mp1 = DynMenuItem mp2
    ∧ (∀ (i : Nat) (step : StepData) (a : Interaction),
        stepInteraction sp1 i step a = stepInteraction sp2 i step a)
    ∧ (∀ a : Interaction, menuActivate mp1 a = menuActivate mp2 a) := by
  subst hs
  subst hm
  exact ⟨rfl, rfl, fun _ _ _ => rfl, fun _ => rfl⟩

/-- Witness for C9 at concrete props. -/
theorem render_deterministic_witness :
    DynStepper { current := 0, steps := [{ key := "a", title := "A" }] } =
      DynStepper { current := 0, steps := [{ key := "a", title := "A" }] } :=
  (render_deterministic
    { current := 0, steps := [{ key := "a", title := "A" }] }
    { current := 0, steps := [{ key := "a", title := "A" }] }
    {} {} rfl rfl).1

/-- C10: the two out-of-range directions of `current` degrade differently:
when `current ≥ length`, every step without an explicit override is displayed
`complete` and every rendered connector is flagged completed; when
`current < 0`, every step without an explicit override is displayed
`pending`. -/
theorem outOfRangeDirections_spec (p : DynStepperProps) :
    ((p.steps.length : Int) ≤ p.current →
      (∀ (i : Nat) (step : StepData), p.steps[i]? = some step → step.status = none →
         getStepStatus p.current i step = .complete)
      ∧ (∀ rs b, (rs, some b) ∈ renderTrack p → b = true))
    ∧ (p.current < 0 →
      ∀ (i : Nat) (step : StepData), p.steps[i]? = some step → step.status = none →
        getStepStatus p.current i step = .pending) := by
  constructor
  · intro hge
    constructor
    · intro i step hget hnone
      have hi : i < p.steps.length := by
        by_contra hgt
        rw [List.getElem?_eq_none (by omega)] at hget
        cases hget
      have hlt : (i : Int) < p.current := by omega
      simp [getStepStatus, hnone, hlt]
    · intro rs b hmem
      unfold renderTrack at hmem
      rcases List.mem_map.mp hmem with ⟨pr, hpr, heq⟩
      have h2 := congrArg Prod.snd heq
      dsimp only at h2
      split at h2
      case isTrue hcond =>
        injection h2 with h3
        rw [← h3]
        have hlt : (pr.1 : Int) < p.current := by
          have hsub := hcond.2
          omega
        simp [hlt]
      case isFalse hcond => cases h2
  · intro hneg i step hget hnone
    have h1 : ¬ ((i : Int) < p.current) := by omega
    have h2 : ¬ ((i : Int) = p.current) := by omega
    simp [getStepStatus, hnone, h1, h2]

/-- Witness for C10: with one override-free step and `current = 5`, the step
displays `complete`; with `current = -1` it displays `pending`. -/
theorem outOfRangeDirections_spec_witness :
    getStepStatus 5 0 ({ key := "a", title := "A" } : StepData) = .complete
    ∧ getStepStatus (-1) 0 ({ key := "a", title := "A" } : StepData) = .pending :=
  ⟨((outOfRangeDirections_spec
      { current := 5, steps := [{ key := "a", title := "A" }] }).1 (by decide)).1
      0 { key := "a", title := "A" } rfl rfl,
   (outOfRangeDirections_spec
      { current := -1, steps := [{ key := "a", title := "A" }] }).2 (by decide)
      0 { key := "a", title := "A" } rfl rfl⟩

end DynUI
